import Mathlib

set_option maxRecDepth 100000
set_option maxHeartbeats 1000000

/-!
Verification of the TOFE / Opsis EEPROM tools (tofe_eeprom.py, opsis_eeprom.py).

The development shallow-embeds, at the byte level, the CRC-8 engine, the
dynamic-length atom container (DynamicLengthStructure / AtomCommon and its
subclasses TOFEAtoms and OpsisAtoms), the atom payload codecs, the atom type
registry built from the ATOMS table, and the 256-byte Opsis composite image
(OpsisEEPROM).  Machine integers are Nat with explicit reductions modulo 256
and friends; raw memory regions are lists of byte values (Nat below 256);
operations that can raise in Python return Option or an explicit result type.
-/

/-- One shift step of CRC-8, polynomial 0x107 (x^8 + x^2 + x + 1), MSB first:
shift the state left and, when the old top bit was set, xor the polynomial
(which also clears the shifted-out bit). -/
def crc8_step (c : Nat) : Nat :=
  if 128 ≤ c then (c * 2) ^^^ 0x107 else c * 2

/-- Iterate crc8_step. -/
def crc8_bits : Nat → Nat → Nat
  | c, 0 => c
  | c, n + 1 => crc8_bits (crc8_step c) n

/-- Feed one byte into a CRC-8 state.  This is crcmod's predefined crc-8
(poly 0x107, init 0x00, non-reflected, xor-out 0x00) used by
DynamicLengthStructure.crc_calculate and OpsisEEPROM.calculate_crc_full. -/
def crc8_feed (c b : Nat) : Nat := crc8_bits (c ^^^ b) 8

/-- CRC-8 of a byte sequence, initial value 0. -/
def crc8_bytes (l : List Nat) : Nat := l.foldl crc8_feed 0

/-- Little-endian byte image of a machine integer of width w bytes
(the ctypes layout of c_uint8 / c_uint16 / c_uint32 fields). -/
def le_bytes : Nat → Nat → List Nat
  | 0, _ => []
  | w + 1, x => (x % 256) :: le_bytes w (x / 256)

/-- Value of a little-endian byte sequence (the ctypes read of an unsigned
little-endian field). -/
def le_value (l : List Nat) : Nat := l.foldr (fun b acc => b + 256 * acc) 0

/-- ASCII/UTF-8 bytes of a string.  Every string fed to the encoders in this
repository is plain ASCII, for which Python's str.encode("utf-8") yields
exactly the code points below 128. -/
def ascii (s : String) : List Nat := s.data.map (fun ch => ch.toNat)

/-- The AtomCommon container (tofe_eeprom.py lines 841-915): fields magic
(c_char * 5), version (u8), atoms (u8), crc8 (u8), _len (u32 LE), and the
data region.  buf is the full data region physically present in memory: for
a standalone (owned) container it is exactly _len bytes, for the OpsisAtoms
view embedded in a 256-byte image it is the fixed 106-byte _datax region. -/
structure Container where
  magic : List Nat
  version : Nat
  atoms : Nat
  crc8 : Nat
  _len : Nat
  buf : List Nat
deriving DecidableEq, Repr

/-- DynamicLengthStructure.as_bytearray for AtomCommon: header then data. -/
def as_bytearray (c : Container) : List Nat :=
  c.magic ++ [c.version, c.atoms, c.crc8] ++ le_bytes 4 c._len ++ c.buf

/-- DynamicLengthStructure.crc_calculate: CRC-8 over the bytes before the crc8
field (offset 7) concatenated with the bytes after it. -/
def crc_calculate (c : Container) : Nat :=
  crc8_bytes (c.magic ++ [c.version, c.atoms] ++ le_bytes 4 c._len ++ c.buf)

/-- DynamicLengthStructure.crc_check. -/
def crc_check (c : Container) : Bool := c.crc8 == crc_calculate c

/-- DynamicLengthStructure.crc_update. -/
def crc_update (c : Container) : Container := { c with crc8 := crc_calculate c }

/-- The data property: the first len bytes of the data region (for AtomCommon
the extra size is 0, so len coincides with _len). -/
def cdata (c : Container) : List Nat := c.buf.take c._len

/-- The ragic property: data[len - len(RAGIC):]. -/
def ragic (c : Container) (R : List Nat) : List Nat :=
  (cdata c).drop (c._len - R.length)

/-- Overwrite bytes of a buffer starting at a given offset (ctypes.memmove or
a slice assignment into the data region). -/
def write_bytes (buf : List Nat) (off : Nat) (xs : List Nat) : List Nat :=
  buf.take off ++ xs ++ buf.drop (off + xs.length)

/-- The len setter of DynamicLengthStructure.  For an owned structure
ctypes.resize grows the backing buffer (zero filled) and never shrinks it;
for a from_address view (owned = false, the OpsisAtoms container inside
OpsisEEPROM) the buffer cannot be resized, and a request beyond the fixed
region raises before _len is written: that raise is the none result. -/
def len_set (owned : Bool) (c : Container) (v : Nat) : Option Container :=
  if owned then
    some { c with _len := v, buf := c.buf ++ List.replicate (v - c.buf.length) 0 }
  else
    if c.buf.length < v then none
    else some { c with _len := v }

/-- AtomCommon.populate: write magic, version 1, zero atoms, set len to the
RAGIC length, copy RAGIC into the data region, recompute the CRC. -/
def populate (owned : Bool) (MAGIC RAGIC : List Nat) (c : Container) :
    Option Container := do
  let c := { c with magic := MAGIC, version := 1, atoms := 0 }
  let c ← len_set owned c RAGIC.length
  let c := { c with buf := write_bytes c.buf 0 RAGIC }
  some (crc_update c)

/-- MAGIC of TOFEAtoms: b"TOFE\x00". -/
def TOFE_MAGIC : List Nat := [84, 79, 70, 69, 0]

/-- RAGIC of TOFEAtoms: MAGIC reversed. -/
def TOFE_RAGIC : List Nat := TOFE_MAGIC.reverse

/-- MAGIC of OpsisAtoms: b"OPSIS". -/
def OPSIS_MAGIC : List Nat := [79, 80, 83, 73, 83]

/-- RAGIC of OpsisAtoms, written literally in the source as b"SISPO". -/
def OPSIS_RAGIC : List Nat := [83, 73, 83, 80, 79]

/-- MAGIC of the AtomCommon base class itself. -/
def ATOMCOMMON_MAGIC : List Nat := [0x00, 0x01, 0x02, 0x03, 0x04]

/-- RAGIC of the AtomCommon base class.  The source literal reads
b"\0x4\0x3\0x2\x01\x00": the first three escapes are a NUL followed by the
two characters x4 / x3 / x2, so the constant is these eleven bytes, not the
five-byte reversal of ATOMCOMMON_MAGIC. -/
def ATOMCOMMON_RAGIC : List Nat :=
  [0x00, 0x78, 0x34, 0x00, 0x78, 0x33, 0x00, 0x78, 0x32, 0x01, 0x00]

/-- A freshly constructed DynamicLengthStructure before populate: all fields
zero, empty data region (the _len-defaulting in __init__ keeps _len = 0 for
AtomCommon since its extra size is 0). -/
def container_zero : Container :=
  { magic := [0, 0, 0, 0, 0], version := 0, atoms := 0, crc8 := 0,
    _len := 0, buf := [] }

/-- TOFEAtoms(): construction runs AtomCommon.populate with the TOFE magic on
an owned buffer. -/
def TOFEAtoms_new : Option Container :=
  populate true TOFE_MAGIC TOFE_RAGIC container_zero

/-- An atom as built by one of the create classmethods: its wire type byte,
the ORDER attribute of its class (the index in the ATOMS table), whether the
class is AtomFormatRelativeURL (whose first payload byte is the index field),
and the payload bytes counted by its length byte. -/
structure AtomB where
  ty : Nat
  order : Nat
  is_rel : Bool
  payload : List Nat
deriving DecidableEq, Repr

/-- Atom.as_bytearray: type byte, length byte, payload. -/
def atom_bytes (a : AtomB) : List Nat := a.ty :: a.payload.length :: a.payload

/-- ctypes.sizeof of a created atom: the two header bytes plus the payload. -/
def atom_sizeof (a : AtomB) : Nat := 2 + a.payload.length

/-- The FORMAT class attribute of each entry of the ATOMS table, in table
order: AtomFormatString 0x00, AtomFormatURL 0x10, AtomFormatRelativeURL 0x20,
AtomFormatTimestamp 0x30, AtomFormatLicense 0x40, AtomFormatSizeOffset 0x50. -/
def ATOMS_formats : List Nat :=
  [0x10, 0x10, 0x10, 0x00, 0x00, 0x00, 0x10, 0x20, 0x00, 0x40, 0x30, 0x30,
   0x00, 0x20, 0x00, 0x40, 0x30, 0x50, 0x50, 0x50, 0x50, 0x50, 0x50, 0x00,
   0x20, 0x20]

/-- The registry loop: entry i gets type FORMAT | (len(format_cls.TYPES) + 1),
and len(format_cls.TYPES) is the number of earlier entries with the same
format class. -/
def atom_type_of (i : Nat) : Nat :=
  let f := ATOMS_formats.getD i 0
  f ||| ((ATOMS_formats.take i).count f + 1)

/-- The type bytes registered in ATOMS_TYPES, in ORDER order. -/
def ATOMS_TYPES_list : List Nat :=
  (List.range ATOMS_formats.length).map atom_type_of

/-- ATOMS_TYPES[t].ORDER: the ORDER of the class registered for a type byte
(none models the KeyError / assert for an unregistered type). -/
def ORDER_of (t : Nat) : Option Nat :=
  ATOMS_TYPES_list.findIdx? (fun x => x == t)

/-- The type bytes whose class is an AtomFormatRelativeURL subclass. -/
def RELURL_TYPES : List Nat :=
  (List.range ATOMS_formats.length).filterMap
    (fun i => if ATOMS_formats.getD i 0 = 0x20 then some (atom_type_of i) else none)

/-- The atom walk of AtomCommon.get_atom: starting from the data region, step
over n atoms (each 2 header bytes plus its length byte), returning the
offset, type byte and length byte of the atom reached.  Reads are against the
physical data region; a read outside it is the none result. -/
def atom_walk (buf : List Nat) : Nat → Nat → Option (Nat × Nat × Nat)
  | off, 0 => do
    let t ← buf[off]?
    let l ← buf[off + 1]?
    some (off, t, l)
  | off, n + 1 => do
    let l ← buf[off + 1]?
    atom_walk buf (off + 2 + l) n

/-- AtomCommon.get_atom(v), reduced to the information add_atom consumes: the
ORDER of the returned atom.  Mirrors the asserts of get_atom: v below the
atom count, the type byte registered, and for a relative-URL atom the index
byte distinct from v and the recursive get_atom(index) succeeding (the fuel
bounds the recursion as Python's interpreter stack does). -/
def get_atom_rec (c : Container) : Nat → Nat → Option Nat
  | 0, _ => none
  | fuel + 1, v =>
    if v < c.atoms then
      match atom_walk c.buf 0 v with
      | none => none
      | some (off, t, _) =>
        match ORDER_of t with
        | none => none
        | some ord =>
          if RELURL_TYPES.contains t then
            match c.buf[off + 2]? with
            | none => none
            | some idx =>
              if idx = v then none
              else
                match get_atom_rec c fuel idx with
                | none => none
                | some _ => some ord
          else some ord
    else none

/-- ORDER of get_atom(v). -/
def get_atom_order (c : Container) (v : Nat) : Option Nat :=
  get_atom_rec c (v + 1) v

/-- The ordering precondition of add_atom: with at least one atom present,
atom.ORDER >= get_atom(atoms - 1).ORDER must hold, and any exception while
fetching that last atom also aborts the append. -/
def order_ok (c : Container) (a : AtomB) : Bool :=
  if c.atoms = 0 then true
  else
    match get_atom_order c (c.atoms - 1) with
    | some o => decide (o ≤ a.order)
    | none => false

/-- Result of AtomCommon.add_atom.  assertFail: one of the asserts before any
mutation fired, the container is untouched.  capacityFail: the length update
raised while resizing a non-owned buffer, after the atoms counter was already
incremented; the carried container is that mutated state.  ok: the append
completed. -/
inductive AddResult where
  | ok (c : Container)
  | assertFail (c : Container)
  | capacityFail (c : Container)
deriving DecidableEq, Repr

/-- Whether an AddResult is a completed append. -/
def add_is_ok : AddResult → Bool
  | .ok _ => true
  | _ => false

/-- AtomCommon.add_atom: assert the trailer equals RAGIC; assert the ordering
against the last atom; for a relative-URL atom assert its index below the
atom count; then increment the atoms byte (a u8, wrapping), grow the length,
copy the atom bytes over the old trailer position, restamp RAGIC at the new
end of data, and recompute the CRC. -/
def add_atom (owned : Bool) (R : List Nat) (c : Container) (a : AtomB) :
    AddResult :=
  if ragic c R ≠ R then .assertFail c
  else if order_ok c a = false then .assertFail c
  else if a.is_rel = true ∧ ¬ a.payload.getD 0 0 < c.atoms then .assertFail c
  else
    let atom_offset := c._len - R.length
    let c1 := { c with atoms := (c.atoms + 1) % 256 }
    match len_set owned c1 (c1._len + atom_sizeof a) with
    | none => .capacityFail c1
    | some c2 =>
      let b1 := write_bytes c2.buf atom_offset (atom_bytes a)
      let b2 := write_bytes b1 (c2._len - R.length) R
      .ok (crc_update { c2 with buf := b2 })

/-- add_atom restricted to its successful outcome (the callers in populate
would propagate any exception). -/
def add_ok (owned : Bool) (R : List Nat) (c : Container) (a : AtomB) :
    Option Container :=
  match add_atom owned R c a with
  | .ok c2 => some c2
  | _ => none

/-- The url setter of AtomFormatURL: everything up to and including the first
"://" is stripped before encoding. -/
def find_scheme : List Nat → Option (List Nat)
  | [] => none
  | b :: rest =>
    if b = 58 ∧ rest.take 2 = [47, 47] then some (rest.drop 2)
    else find_scheme rest

/-- Strip a scheme prefix if present (url.split("://", 1)[-1]). -/
def strip_scheme (l : List Nat) : List Nat := (find_scheme l).getD l

/-- AtomFormatString.create. -/
def string_create (ty order : Nat) (s : List Nat) : AtomB :=
  { ty := ty, order := order, is_rel := false, payload := s }

/-- AtomFormatURL.create. -/
def url_create (ty order : Nat) (s : List Nat) : AtomB :=
  { ty := ty, order := order, is_rel := false, payload := strip_scheme s }

/-- AtomFormatRelativeURL.create: asserts the url does not start with a
slash; the index byte is the first payload byte. -/
def relurl_create (ty order index : Nat) (s : List Nat) : Option AtomB :=
  if s.take 1 = [47] then none
  else some { ty := ty, order := order, is_rel := true, payload := index :: s }

/-- AtomFormatLicense.create: a one-byte payload with the packed enum value. -/
def license_create (ty order value : Nat) : AtomB :=
  { ty := ty, order := order, is_rel := false, payload := [value] }

/-- The packed license value license << 3 | version for CC_BY_SA_v40. -/
def License_CC_BY_SA_v40 : Nat := 8 <<< 3 ||| 5

/-- The while loop of the AtomFormatExpandInt v setter, with an explicit
bound on the number of iterations: emit v & 0xff and shift v right by 8
until v is zero, little-endian.  The loop strictly shrinks v, so any fuel of
at least v runs it to completion. -/
def expand_v_loop (fuel v : Nat) : List Nat :=
  match fuel with
  | 0 => []
  | fuel + 1 =>
    if v = 0 then [] else (v &&& 0xff) :: expand_v_loop fuel (v >>> 8)

/-- The v setter of AtomFormatExpandInt. -/
def expand_v_set (v : Nat) : List Nat := expand_v_loop v v

/-- The v getter of AtomFormatExpandInt: or together data[i] << (i * 8). -/
def expand_v_get : List Nat → Nat
  | [] => 0
  | b :: rest => b ||| expand_v_get rest <<< 8

/-- AtomFormatExpandInt.create. -/
def expand_create (ty order v : Nat) : AtomB :=
  { ty := ty, order := order, is_rel := false, payload := expand_v_set v }

/-- The timestamp epoch, 2015-01-01T00:00:00Z. -/
def EPOCH : Nat := 1420070400

/-- AtomFormatTimestamp.create: assert ts - EPOCH > 0, then store the delta
as an expanding integer. -/
def ts_create (ty order ts : Nat) : Option AtomB :=
  if ts - EPOCH > 0 then some (expand_create ty order (ts - EPOCH)) else none

/-- The ts getter: EPOCH plus the stored expanding integer. -/
def ts_value (payload : List Nat) : Nat := EPOCH + expand_v_get payload

/-- AtomFormatSizeOffset.create: pick Small (two c_uint8), Medium (two
c_uint16) or Large (two c_uint32), narrowest first, offset stored before
size; values fitting in none of them hit an assert False. -/
def size_offset_payload (offset size : Nat) : Option (List Nat) :=
  if offset < 2 ^ 8 ∧ size < 2 ^ 8 then
    some (le_bytes 1 offset ++ le_bytes 1 size)
  else if offset < 2 ^ 16 ∧ size < 2 ^ 16 then
    some (le_bytes 2 offset ++ le_bytes 2 size)
  else if offset < 2 ^ 32 ∧ size < 2 ^ 32 then
    some (le_bytes 4 offset ++ le_bytes 4 size)
  else none

/-- AtomFormatSizeOffset.create packaged as an atom. -/
def size_offset_create (ty order offset size : Nat) : Option AtomB :=
  (size_offset_payload offset size).map
    (fun p => { ty := ty, order := order, is_rel := false, payload := p })

/-- The _data_struct dispatch on read: the length byte selects Small, Medium
or Large, anything else hits an assert False; the pair read back is
(offset, size). -/
def size_offset_read (p : List Nat) : Option (Nat × Nat) :=
  if p.length = 2 then some (le_value (p.take 1), le_value (p.drop 1))
  else if p.length = 4 then some (le_value (p.take 2), le_value (p.drop 2))
  else if p.length = 8 then some (le_value (p.take 4), le_value (p.drop 4))
  else none

/-- AtomManufacturerID.create (ATOMS entry 1, an AtomFormatURL). -/
def AtomManufacturerID (s : List Nat) : AtomB := url_create (atom_type_of 1) 1 s

/-- AtomProductID.create (ATOMS entry 2, an AtomFormatURL). -/
def AtomProductID (s : List Nat) : AtomB := url_create (atom_type_of 2) 2 s

/-- AtomProductVersion.create (ATOMS entry 3, an AtomFormatString). -/
def AtomProductVersion (s : List Nat) : AtomB :=
  string_create (atom_type_of 3) 3 s

/-- AtomPCBRepository.create (ATOMS entry 7, an AtomFormatRelativeURL). -/
def AtomPCBRepository (index : Nat) (s : List Nat) : Option AtomB :=
  relurl_create (atom_type_of 7) 7 index s

/-- AtomPCBRevision.create (ATOMS entry 8, an AtomFormatString). -/
def AtomPCBRevision (s : List Nat) : AtomB := string_create (atom_type_of 8) 8 s

/-- AtomPCBLicense.create (ATOMS entry 9, an AtomFormatLicense). -/
def AtomPCBLicense (value : Nat) : AtomB :=
  license_create (atom_type_of 9) 9 value

/-- AtomPCBProductionBatchID.create (ATOMS entry 10, a timestamp). -/
def AtomPCBProductionBatchID (ts : Nat) : Option AtomB :=
  ts_create (atom_type_of 10) 10 ts

/-- AtomPCBPopulationBatchID.create (ATOMS entry 11, a timestamp). -/
def AtomPCBPopulationBatchID (ts : Nat) : Option AtomB :=
  ts_create (atom_type_of 11) 11 ts

/-- AtomEEPROMTotalSize.create (ATOMS entry 17, a size/offset pair). -/
def AtomEEPROMTotalSize (offset size : Nat) : Option AtomB :=
  size_offset_create (atom_type_of 17) 17 offset size

/-- AtomEEPROMVendorData.create (ATOMS entry 18, a size/offset pair). -/
def AtomEEPROMVendorData (offset size : Nat) : Option AtomB :=
  size_offset_create (atom_type_of 18) 18 offset size

/-- AtomEEPROMGUID.create (ATOMS entry 21, a size/offset pair). -/
def AtomEEPROMGUID (offset size : Nat) : Option AtomB :=
  size_offset_create (atom_type_of 21) 21 offset size

/-- AtomEEPROMHole.create (ATOMS entry 22, a size/offset pair). -/
def AtomEEPROMHole (offset size : Nat) : Option AtomB :=
  size_offset_create (atom_type_of 22) 22 offset size

/-- AtomSampleCodeRepository.create (ATOMS entry 24, a relative URL). -/
def AtomSampleCodeRepository (index : Nat) (s : List Nat) : Option AtomB :=
  relurl_create (atom_type_of 24) 24 index s

/-- AtomDocumentationSite.create (ATOMS entry 25, a relative URL). -/
def AtomDocumentationSite (index : Nat) (s : List Nat) : Option AtomB :=
  relurl_create (atom_type_of 25) 25 index s

/-- First third of OpsisAtoms.populate: AtomCommon.populate on the non-owned
106-byte view, then the board-identification appends. -/
def OpsisAtoms_populate_id (c : Container) : Option Container := do
  let c ← populate false OPSIS_MAGIC OPSIS_RAGIC c
  let c ← add_ok false OPSIS_RAGIC c (AtomManufacturerID (ascii "numato.com"))
  let c ← add_ok false OPSIS_RAGIC c (AtomProductID (ascii "opsis.h2u.tv"))
  some c

/-- Second third of OpsisAtoms.populate: the PCB information appends.  The
two time.time() readings of the source are the external inputs ts1, ts2. -/
def OpsisAtoms_populate_pcb (ts1 ts2 : Nat) (c : Container) :
    Option Container := do
  let a ← AtomPCBRepository 1 (ascii "r/pcb.git")
  let c ← add_ok false OPSIS_RAGIC c a
  let c ← add_ok false OPSIS_RAGIC c (AtomPCBRevision (ascii "6a18b19"))
  let c ← add_ok false OPSIS_RAGIC c (AtomPCBLicense License_CC_BY_SA_v40)
  let a ← AtomPCBProductionBatchID ts1
  let c ← add_ok false OPSIS_RAGIC c a
  let a ← AtomPCBPopulationBatchID ts2
  let c ← add_ok false OPSIS_RAGIC c a
  some c

/-- Last third of OpsisAtoms.populate: the EEPROM map appends and the
repository links. -/
def OpsisAtoms_populate_rom (c : Container) : Option Container := do
  let a ← AtomEEPROMTotalSize 0 256
  let c ← add_ok false OPSIS_RAGIC c a
  let a ← AtomEEPROMVendorData 0 8
  let c ← add_ok false OPSIS_RAGIC c a
  let a ← AtomEEPROMGUID 0xf8 8
  let c ← add_ok false OPSIS_RAGIC c a
  let a ← AtomEEPROMHole 0x80 120
  let c ← add_ok false OPSIS_RAGIC c a
  let a ← AtomSampleCodeRepository 1 (ascii "r/sample.git")
  let c ← add_ok false OPSIS_RAGIC c a
  let a ← AtomDocumentationSite 1 (ascii "")
  let c ← add_ok false OPSIS_RAGIC c a
  some c

/-- OpsisAtoms.populate (opsis_eeprom.py lines 50-68): the three stages in
source order. -/
def OpsisAtoms_populate (ts1 ts2 : Nat) (c : Container) : Option Container := do
  let c ← OpsisAtoms_populate_id c
  let c ← OpsisAtoms_populate_pcb ts1 ts2 c
  OpsisAtoms_populate_rom c

/-- The 256-byte OpsisEEPROM image (opsis_eeprom.py lines 71-177), field by
field: the FX2 C0 header (format, vid, pid, did, config), the separator
byte, the embedded OpsisAtoms container backed by the fixed 106-byte
_atoms_data region, the crc8_full byte at offset 0x7F, the 120-byte
wp_empty padding and the 8-byte wp_mac vendor region. -/
structure OpsisEEPROM where
  fx2_format : Nat
  fx2_vid : Nat
  fx2_pid : Nat
  fx2_did : Nat
  fx2_config : Nat
  sep : Nat
  eeprom_atoms : Container
  crc8_full : Nat
  wp_empty : List Nat
  wp_mac : List Nat
deriving DecidableEq, Repr

/-- OpsisEEPROM.as_bytearray: 256 bytes in field order. -/
def OpsisEEPROM.as_bytes (e : OpsisEEPROM) : List Nat :=
  [e.fx2_format] ++ le_bytes 2 e.fx2_vid ++ le_bytes 2 e.fx2_pid
    ++ le_bytes 2 e.fx2_did ++ [e.fx2_config, e.sep]
    ++ as_bytearray e.eeprom_atoms ++ [e.crc8_full] ++ e.wp_empty ++ e.wp_mac

/-- OpsisEEPROM.full_bytes: the image with the crc8_full byte (offset 0x7F)
removed. -/
def full_bytes (e : OpsisEEPROM) : List Nat :=
  (OpsisEEPROM.as_bytes e).take 127 ++ (OpsisEEPROM.as_bytes e).drop 128

/-- OpsisEEPROM.calculate_crc_full. -/
def calculate_crc_full (e : OpsisEEPROM) : Nat := crc8_bytes (full_bytes e)

/-- FX2C0Config.check: format 0xC0, the Numato VID, the unconfigured Opsis
PID (did and config are not checked). -/
def fx2_check (e : OpsisEEPROM) : Bool :=
  e.fx2_format == 0xC0 && e.fx2_vid == 0x2A19 && e.fx2_pid == 0x5440

/-- OpsisEEPROM.check (opsis_eeprom.py lines 112-121).  Everything the method
asserts: the FX2 header fields, the zero separator, the container magic and
version, the RAGIC trailer, the 0xFF padding and the outer CRC.  The call
self.eeprom_atoms.crc_check() on line 117 computes the inner CRC comparison
but discards the returned Bool, so it contributes no conjunct here. -/
def OpsisEEPROM.check (e : OpsisEEPROM) : Bool :=
  fx2_check e && e.sep == 0 && (e.eeprom_atoms.magic == OPSIS_MAGIC)
    && (e.eeprom_atoms.version == 1)
    && (ragic e.eeprom_atoms OPSIS_RAGIC == OPSIS_RAGIC)
    && (e.wp_empty == List.replicate 120 0xff)
    && (e.crc8_full == calculate_crc_full e)

/-- The straight-line first half of OpsisEEPROM.populate (opsis_eeprom.py
lines 100-107), in source order: fill the FX2 header (did and config are not
written), zero the separator, zero the 106-byte atoms region, fill wp_empty
with 0xFF, and write 0xFF (the byte image of the c_byte value -1) into the
first two wp_mac bytes when the first one reads zero. -/
def opsis_populate_pre (e : OpsisEEPROM) : OpsisEEPROM :=
  let e := { e with fx2_format := 0xC0, fx2_vid := 0x2A19, fx2_pid := 0x5440 }
  let e := { e with sep := 0 }
  let e :=
    { e with eeprom_atoms := { e.eeprom_atoms with buf := List.replicate 106 0 } }
  let e := { e with wp_empty := List.replicate 120 0xff }
  { e with
    wp_mac :=
      if e.wp_mac.getD 0 0 = 0 then 0xff :: 0xff :: e.wp_mac.drop 2
      else e.wp_mac }

/-- The tail of OpsisEEPROM.populate once OpsisAtoms.populate has produced
the container: store it and stamp crc8_full (opsis_eeprom.py line 110). -/
def opsis_populate_fin (e : OpsisEEPROM) (c : Container) : Option OpsisEEPROM :=
  let e := { e with eeprom_atoms := c }
  some { e with crc8_full := calculate_crc_full e }

/-- OpsisEEPROM.populate (opsis_eeprom.py lines 99-110): the straight-line
updates, then OpsisAtoms.populate on the embedded view (propagating its
exception, the none case), then the crc8_full stamp. -/
def OpsisEEPROM.populate (e : OpsisEEPROM) (ts1 ts2 : Nat) :
    Option OpsisEEPROM :=
  let e := opsis_populate_pre e
  (OpsisAtoms_populate ts1 ts2 e.eeprom_atoms).bind (opsis_populate_fin e)

/-- An all-zero 256-byte image as the populate starting point. -/
def opsis_zero : OpsisEEPROM :=
  { fx2_format := 0, fx2_vid := 0, fx2_pid := 0, fx2_did := 0, fx2_config := 0,
    sep := 0,
    eeprom_atoms :=
      { magic := [0, 0, 0, 0, 0], version := 0, atoms := 0, crc8 := 0,
        _len := 0, buf := List.replicate 106 0 },
    crc8_full := 0,
    wp_empty := List.replicate 120 0,
    wp_mac := List.replicate 8 0 }

/-- AtomCommon() on the base class itself: populate with the base MAGIC and
the eleven-byte base RAGIC constant. -/
def base_new : Option Container :=
  populate true ATOMCOMMON_MAGIC ATOMCOMMON_RAGIC container_zero

/-- A TOFE container holding a single one-byte AtomProductID atom (the result
of TOFEAtoms() followed by add_atom(AtomProductID.create("x"))). -/
def tofe_one_atom : Option Container := do
  let c ← TOFEAtoms_new
  add_ok true TOFE_RAGIC c (AtomProductID (ascii "x"))

/-- The container of tofe_one_atom, spelled out: the 0x13 atom followed by
the restamped TOFE trailer. -/
def tofe_one_atom_c : Container :=
  { magic := TOFE_MAGIC, version := 1, atoms := 1, crc8 := 194, _len := 8,
    buf := [0x13, 1, 120, 0, 69, 70, 79, 84] }

/-- An embedded Opsis container whose fixed 106-byte data region is entirely
in use (_len = 106, trailer in place), so that any further append needs a
resize of the non-owned buffer. -/
def c4_full : Container :=
  { magic := OPSIS_MAGIC, version := 1, atoms := 0, crc8 := 0, _len := 106,
    buf := List.replicate 101 0 ++ OPSIS_RAGIC }

/-- An empty embedded Opsis container, before its crc8 byte is chosen. -/
def c7_atoms0 : Container :=
  { magic := OPSIS_MAGIC, version := 1, atoms := 0, crc8 := 0, _len := 5,
    buf := OPSIS_RAGIC ++ List.replicate 101 0 }

/-- The same container with a crc8 byte that disagrees with the CRC-8 of its
bytes (the computed value plus one, as a byte). -/
def c7_atoms : Container :=
  { c7_atoms0 with crc8 := (crc_calculate c7_atoms0 + 1) % 256 }

/-- A 256-byte composite image that is well formed in every checked respect
but whose embedded container carries the disagreeing crc8 byte. -/
def c7_img0 : OpsisEEPROM :=
  { fx2_format := 0xC0, fx2_vid := 0x2A19, fx2_pid := 0x5440, fx2_did := 0,
    fx2_config := 0, sep := 0, eeprom_atoms := c7_atoms, crc8_full := 0,
    wp_empty := List.replicate 120 0xff, wp_mac := List.replicate 8 0 }

/-- The image with its outer crc8_full stamped consistently. -/
def c7_img : OpsisEEPROM :=
  { c7_img0 with crc8_full := calculate_crc_full c7_img0 }


/-! ## Helper lemmas -/

theorem le_bytes_length (w x : Nat) : (le_bytes w x).length = w := by
  induction w generalizing x with
  | zero => rfl
  | succ n ih => simp [le_bytes, ih]

theorem le_value_le_bytes (w x : Nat) (h : x < 2 ^ (8 * w)) :
    le_value (le_bytes w x) = x := by
  induction w generalizing x with
  | zero =>
    have : x = 0 := by simpa using h
    simp [this, le_bytes, le_value]
  | succ n ih =>
    have hdiv : x / 256 < 2 ^ (8 * n) := by
      rw [Nat.div_lt_iff_lt_mul (by norm_num)]
      calc x < 2 ^ (8 * (n + 1)) := h
        _ = 2 ^ (8 * n) * 256 := by ring
    simp only [le_bytes, le_value, List.foldr_cons]
    have := ih (x / 256) hdiv
    simp only [le_value] at this
    rw [this]
    omega

theorem expand_loop_get (fuel : Nat) :
    ∀ v, v ≤ fuel → expand_v_get (expand_v_loop fuel v) = v := by
  induction fuel with
  | zero =>
    intro v hv
    have : v = 0 := Nat.le_zero.mp hv
    simp [this, expand_v_loop, expand_v_get]
  | succ n ih =>
    intro v hv
    by_cases h0 : v = 0
    · simp [h0, expand_v_loop, expand_v_get]
    · have hsh : v >>> 8 < v := by
        simp only [Nat.shiftRight_eq_div_pow]
        exact Nat.div_lt_self (Nat.pos_of_ne_zero h0) (by norm_num)
      have hle : v >>> 8 ≤ n := by omega
      simp only [expand_v_loop, h0, if_false, expand_v_get]
      rw [ih _ hle]
      have hand : v &&& 0xff = v % 2 ^ 8 := by
        have := Nat.and_pow_two_sub_one_eq_mod v 8
        norm_num at this ⊢
        exact this
      rw [hand, Nat.shiftRight_eq_div_pow, Nat.shiftLeft_eq, Nat.or_comm,
        Nat.mul_comm, ← Nat.mul_add_lt_is_or (Nat.mod_lt v (by norm_num)) _]
      exact Nat.div_add_mod v (2 ^ 8)

theorem expand_loop_nil (fuel v : Nat) (h : v ≤ fuel) :
    expand_v_loop fuel v = [] ↔ v = 0 := by
  cases fuel with
  | zero => simp [expand_v_loop]; omega
  | succ n =>
    by_cases h0 : v = 0 <;> simp [expand_v_loop, h0]

theorem expand_loop_last (fuel : Nat) :
    ∀ v b, v ≤ fuel → (expand_v_loop fuel v).getLast? = some b → b ≠ 0 := by
  induction fuel with
  | zero =>
    intro v b hv hlast
    have : v = 0 := Nat.le_zero.mp hv
    simp [this, expand_v_loop] at hlast
  | succ n ih =>
    intro v b hv hlast
    by_cases h0 : v = 0
    · simp [h0, expand_v_loop] at hlast
    · have hsh : v >>> 8 < v := by
        simp only [Nat.shiftRight_eq_div_pow]
        exact Nat.div_lt_self (Nat.pos_of_ne_zero h0) (by norm_num)
      have hle : v >>> 8 ≤ n := by omega
      simp only [expand_v_loop, h0, if_false] at hlast
      cases htail : expand_v_loop n (v >>> 8) with
      | nil =>
        rw [htail, List.getLast?_singleton] at hlast
        have hz : v >>> 8 = 0 := (expand_loop_nil n (v >>> 8) hle).mp htail
        rw [Nat.shiftRight_eq_div_pow] at hz
        norm_num at hz
        have hvlt : v < 256 := by omega
        have hand : v &&& 0xff = v := by
          have h2 := Nat.and_pow_two_sub_one_eq_mod v 8
          norm_num at h2
          rw [h2]
          omega
        rw [hand] at hlast
        have hvb : v = b := by injection hlast
        omega
      | cons x xs =>
        rw [htail, List.getLast?_cons_cons] at hlast
        exact ih (v >>> 8) b hle (by rw [htail]; exact hlast)

theorem expand_loop_len (k : Nat) :
    ∀ fuel v, v ≤ fuel → v < 2 ^ (8 * k) → (expand_v_loop fuel v).length ≤ k := by
  induction k with
  | zero =>
    intro fuel v hf hv
    have : v = 0 := by simpa using hv
    subst this
    cases fuel <;> simp [expand_v_loop]
  | succ m ih =>
    intro fuel v hf hv
    cases fuel with
    | zero => simp [expand_v_loop]
    | succ n =>
      by_cases h0 : v = 0
      · simp [h0, expand_v_loop]
      · have hsh : v >>> 8 < v := by
          simp only [Nat.shiftRight_eq_div_pow]
          exact Nat.div_lt_self (Nat.pos_of_ne_zero h0) (by norm_num)
        have hle : v >>> 8 ≤ n := by omega
        have hdiv : v >>> 8 < 2 ^ (8 * m) := by
          rw [Nat.shiftRight_eq_div_pow, Nat.div_lt_iff_lt_mul (by norm_num)]
          calc v < 2 ^ (8 * (m + 1)) := hv
            _ = 2 ^ (8 * m) * 2 ^ 8 := by ring
        simp only [expand_v_loop, h0, if_false, List.length_cons]
        have := ih n (v >>> 8) hle hdiv
        omega

/-- Round trip of the expanding-integer codec. -/
theorem expand_set_get (v : Nat) : expand_v_get (expand_v_set v) = v :=
  expand_loop_get v v (Nat.le_refl v)

/-! ## Claim C5: variable-width integer codec -/

/-- C5.  The AtomFormatExpandInt encoder emits the shortest little-endian
byte sequence: decoding the encoded bytes returns the value, the encoding is
empty exactly for the value 0, a nonempty encoding ends in a nonzero byte,
and values below 2^64 encode in at most 8 bytes. -/
theorem expand_int_spec (v : Nat) :
    expand_v_get (expand_v_set v) = v ∧
    (expand_v_set v = [] ↔ v = 0) ∧
    (∀ b, (expand_v_set v).getLast? = some b → b ≠ 0) ∧
    (v < 2 ^ 64 → (expand_v_set v).length ≤ 8) := by
  refine ⟨expand_set_get v, ?_, ?_, ?_⟩
  · exact expand_loop_nil v v (Nat.le_refl v)
  · intro b hb
    exact expand_loop_last v v b (Nat.le_refl v) hb
  · intro h
    have h64 : v < 2 ^ (8 * 8) := by norm_num at h ⊢; exact h
    exact expand_loop_len 8 v v (Nat.le_refl v) h64

/-- Witness for C5 at the concrete value 1000000 (bytes 0x40 0x42 0x0F). -/
theorem expand_int_spec_witness :
    expand_v_get (expand_v_set 1000000) = 1000000 ∧
    (expand_v_set 1000000).length ≤ 8 ∧ (15 : Nat) ≠ 0 :=
  ⟨(expand_int_spec 1000000).1,
   (expand_int_spec 1000000).2.2.2 (by norm_num),
   (expand_int_spec 1000000).2.2.1 15 (by decide)⟩

/-! ## Claim C9: timestamp codec -/

/-- C9.  AtomFormatTimestamp stores ts - EPOCH as an expanding integer,
fails exactly when ts is at most EPOCH = 1420070400, decodes back to ts, and
1421070400 encodes to the three payload bytes 0x40 0x42 0x0F. -/
theorem timestamp_spec :
    (∀ ty o ts : Nat, (ts_create ty o ts = none ↔ ts ≤ EPOCH)) ∧
    (∀ ty o ts : Nat, EPOCH < ts →
      ts_create ty o ts = some (expand_create ty o (ts - EPOCH)) ∧
      (expand_create ty o (ts - EPOCH)).payload = expand_v_set (ts - EPOCH) ∧
      ts_value (expand_create ty o (ts - EPOCH)).payload = ts) ∧
    (AtomPCBProductionBatchID 1421070400).map AtomB.payload =
      some [0x40, 0x42, 0x0F] := by
  refine ⟨?_, ?_, by decide⟩
  · intro ty o ts
    unfold ts_create
    constructor
    · intro h
      by_contra hc
      rw [if_pos (by omega)] at h
      exact Option.noConfusion h
    · intro h
      rw [if_neg (by omega)]
  · intro ty o ts h
    refine ⟨by unfold ts_create; rw [if_pos (by omega)], by simp only [expand_create], ?_⟩
    simp only [ts_value, expand_create]
    rw [expand_set_get]
    omega

/-- Witness for C9 at ts = 1421070400 (delta 1000000) and the failing
ts = EPOCH. -/
theorem timestamp_spec_witness :
    ts_create 0x31 10 1421070400 = some (expand_create 0x31 10 1000000) ∧
    ts_value (expand_create 0x31 10 1000000).payload = 1421070400 ∧
    ts_create 0x31 10 1420070400 = none := by
  have h1 := (timestamp_spec.2.1 0x31 10 1421070400 (by norm_num [EPOCH]))
  have h2 := (timestamp_spec.1 0x31 10 1420070400).mpr (by norm_num [EPOCH])
  refine ⟨?_, ?_, h2⟩
  · have := h1.1
    norm_num [EPOCH] at this ⊢
    exact this
  · have := h1.2.2
    norm_num [EPOCH] at this ⊢
    exact this

/-! ## Claim C8: size/offset codec -/

/-- Reading back a pair written at width w bytes per member. -/
theorem le_pair_read (w o s : Nat) (ho : o < 2 ^ (8 * w)) (hs : s < 2 ^ (8 * w)) :
    le_value ((le_bytes w o ++ le_bytes w s).take w) = o ∧
    le_value ((le_bytes w o ++ le_bytes w s).drop w) = s := by
  rw [List.take_left' (le_bytes_length w o), List.drop_left' (le_bytes_length w o)]
  exact ⟨le_value_le_bytes w o ho, le_value_le_bytes w s hs⟩

/-- C8.  AtomFormatSizeOffset picks the narrowest of the three widths that
fits both members (payload length 2, 4 or 8), stores offset then size little
endian, and reading the payload back returns the same pair; concretely
(5, 10) gives the payload 05 0A and (700, 10) gives BC 02 0A 00. -/
theorem size_offset_spec :
    (∀ offset size : Nat, offset < 2 ^ 32 → size < 2 ^ 32 →
      ∃ p, size_offset_payload offset size = some p ∧
        p.length = (if offset < 2 ^ 8 ∧ size < 2 ^ 8 then 2
          else if offset < 2 ^ 16 ∧ size < 2 ^ 16 then 4 else 8) ∧
        size_offset_read p = some (offset, size)) ∧
    size_offset_payload 5 10 = some [0x05, 0x0A] ∧
    size_offset_payload 700 10 = some [0xBC, 0x02, 0x0A, 0x00] := by
  refine ⟨?_, by decide, by decide⟩
  intro o s ho hs
  have hlen : ∀ w : Nat, (le_bytes w o ++ le_bytes w s).length = w + w := by
    intro w
    simp [le_bytes_length]
  unfold size_offset_payload
  by_cases h1 : o < 2 ^ 8 ∧ s < 2 ^ 8
  · refine ⟨le_bytes 1 o ++ le_bytes 1 s, by rw [if_pos h1], ?_, ?_⟩
    · rw [if_pos h1, hlen 1]
    · have hp := le_pair_read 1 o s (by omega) (by omega)
      unfold size_offset_read
      rw [if_pos (by rw [hlen 1])]
      rw [hp.1, hp.2]
  · by_cases h2 : o < 2 ^ 16 ∧ s < 2 ^ 16
    · refine ⟨le_bytes 2 o ++ le_bytes 2 s, by rw [if_neg h1, if_pos h2], ?_, ?_⟩
      · rw [if_neg h1, if_pos h2, hlen 2]
      · have hp := le_pair_read 2 o s (by omega) (by omega)
        unfold size_offset_read
        rw [if_neg (by rw [hlen 2]; omega), if_pos (by rw [hlen 2])]
        rw [hp.1, hp.2]
    · have h3 : o < 2 ^ 32 ∧ s < 2 ^ 32 := ⟨ho, hs⟩
      refine ⟨le_bytes 4 o ++ le_bytes 4 s,
        by rw [if_neg h1, if_neg h2, if_pos h3], ?_, ?_⟩
      · rw [if_neg h1, if_neg h2, hlen 4]
      · have hp := le_pair_read 4 o s (by omega) (by omega)
        unfold size_offset_read
        rw [if_neg (by rw [hlen 4]; omega), if_neg (by rw [hlen 4]; omega),
          if_pos (by rw [hlen 4])]
        rw [hp.1, hp.2]

/-- Witness for C8 at the concrete pair (700, 10). -/
theorem size_offset_spec_witness :
    size_offset_read [0xBC, 0x02, 0x0A, 0x00] = some (700, 10) := by
  obtain ⟨p, hp, _, hr⟩ := size_offset_spec.1 700 10 (by norm_num) (by norm_num)
  have hconc := size_offset_spec.2.2
  rw [hp] at hconc
  have hpe : p = [0xBC, 0x02, 0x0A, 0x00] := by injection hconc
  rw [hpe] at hr
  exact hr

/-! ## Claim C1: the empty TOFE container -/

/-- Counterexample to C1 as stated: the serialized image of a fresh TOFE
container has 17 bytes, not 13 (the 12-byte header plus the 5 trailer
bytes). -/
theorem tofe_new_not_13_bytes :
    TOFEAtoms_new.map (fun c => (as_bytearray c).length) = some 17 ∧
    TOFEAtoms_new.map (fun c => (as_bytearray c).length) ≠ some 13 := by
  decide

/-- C1 amended.  TOFEAtoms() produces exactly the serialized image
TOFE NUL, version 1, atom count 0, crc 0x8C, total length 5 (little endian
u32), then the reversed magic; the image is 17 bytes, and crc_check (the
container's own integrity check) passes. -/
theorem tofe_new_image :
    TOFEAtoms_new.map as_bytearray =
      some (TOFE_MAGIC ++ [0x01, 0x00, 0x8C, 0x05, 0x00, 0x00, 0x00]
        ++ TOFE_MAGIC.reverse) ∧
    TOFEAtoms_new.map Container.atoms = some 0 ∧
    TOFEAtoms_new.map Container._len = some 5 ∧
    TOFEAtoms_new.map crc_check = some true ∧
    TOFEAtoms_new.map (fun c => (as_bytearray c).length) = some 17 := by
  decide

/-! ## Claim C2: the reversed-magic trailer -/

/-- C2 is broken by the AtomCommon base class itself: after populate the
trailer is the eleven-byte mis-escaped RAGIC constant, so the last five
serialized bytes are 00 78 32 01 00 and not the reversal 04 03 02 01 00 of
the base MAGIC.  (The code's own trailer invariant, trailer = RAGIC
constant, does hold; the constant simply is not reverse(magic).) -/
theorem atomcommon_trailer_not_reversed_magic :
    base_new.map (fun c => (as_bytearray c).drop ((as_bytearray c).length - 5)) =
      some [0x00, 0x78, 0x32, 0x01, 0x00] ∧
    base_new.map (fun c => ragic c ATOMCOMMON_RAGIC) = some ATOMCOMMON_RAGIC ∧
    ATOMCOMMON_RAGIC.length = 11 ∧
    [0x00, 0x78, 0x32, 0x01, 0x00] ≠ ATOMCOMMON_MAGIC.reverse := by
  decide

/-! ## Claim C6: registry type bytes -/

/-- Counterexample to C6 as stated: the first ATOMS entry (Designer ID) is
registered with type byte 0x11, not 0x10. -/
theorem registry_designer_not_0x10 :
    atom_type_of 0 = 0x11 ∧ atom_type_of 0 ≠ 0x10 := by decide

/-- C6 amended.  The registry assigns Designer 0x11, Manufacturer 0x12,
Product ID 0x13 and Product Version 0x01 (each format family numbers its
members from 1), so the atom built by AtomManufacturerID.create carries the
type byte 0x12 on the wire. -/
theorem registry_types :
    atom_type_of 0 = 0x11 ∧ atom_type_of 1 = 0x12 ∧ atom_type_of 2 = 0x13 ∧
    atom_type_of 3 = 0x01 ∧
    (atom_bytes (AtomManufacturerID (ascii "numato.com"))).headD 0 = 0x12 := by
  decide

/-! ## Claim C7: the composite check and the inner CRC -/

/-- Changing only the crc8_full byte leaves full_bytes unchanged: the byte at
offset 127 is exactly the one full_bytes removes (for any image whose fields
have the fixed physical sizes). -/
theorem full_bytes_set_crc8_full (e : OpsisEEPROM) (x : Nat)
    (hm : e.eeprom_atoms.magic.length = 5) (hb : e.eeprom_atoms.buf.length = 106) :
    full_bytes { e with crc8_full := x } = full_bytes e := by
  have hlen : ∀ y : Nat,
      OpsisEEPROM.as_bytes { e with crc8_full := y } =
        ([e.fx2_format] ++ le_bytes 2 e.fx2_vid ++ le_bytes 2 e.fx2_pid
          ++ le_bytes 2 e.fx2_did ++ [e.fx2_config, e.sep]
          ++ as_bytearray e.eeprom_atoms ++ [y]) ++ (e.wp_empty ++ e.wp_mac) := by
    intro y
    simp [OpsisEEPROM.as_bytes]
  have hplen :
      ([e.fx2_format] ++ le_bytes 2 e.fx2_vid ++ le_bytes 2 e.fx2_pid
        ++ le_bytes 2 e.fx2_did ++ [e.fx2_config, e.sep]
        ++ as_bytearray e.eeprom_atoms ++ [0]).length = 128 := by
    simp [as_bytearray, le_bytes_length, hm, hb]
  have hplen' : ∀ y : Nat,
      ([e.fx2_format] ++ le_bytes 2 e.fx2_vid ++ le_bytes 2 e.fx2_pid
        ++ le_bytes 2 e.fx2_did ++ [e.fx2_config, e.sep]
        ++ as_bytearray e.eeprom_atoms ++ [y]).length = 128 := by
    intro y
    simp only [List.length_append, List.length_cons, List.length_nil] at hplen ⊢
    exact hplen
  have htake : ∀ y : Nat,
      (OpsisEEPROM.as_bytes { e with crc8_full := y }).take 127 =
        (([e.fx2_format] ++ le_bytes 2 e.fx2_vid ++ le_bytes 2 e.fx2_pid
          ++ le_bytes 2 e.fx2_did ++ [e.fx2_config, e.sep]
          ++ as_bytearray e.eeprom_atoms ++ [y]).take 127) := by
    intro y
    rw [hlen y, List.take_append_of_le_length (by rw [hplen' y]; omega)]
  have htake2 : ∀ y z : Nat,
      ([e.fx2_format] ++ le_bytes 2 e.fx2_vid ++ le_bytes 2 e.fx2_pid
        ++ le_bytes 2 e.fx2_did ++ [e.fx2_config, e.sep]
        ++ as_bytearray e.eeprom_atoms ++ [y]).take 127 =
      ([e.fx2_format] ++ le_bytes 2 e.fx2_vid ++ le_bytes 2 e.fx2_pid
        ++ le_bytes 2 e.fx2_did ++ [e.fx2_config, e.sep]
        ++ as_bytearray e.eeprom_atoms ++ [z]).take 127 := by
    intro y z
    have h127 : ([e.fx2_format] ++ le_bytes 2 e.fx2_vid ++ le_bytes 2 e.fx2_pid
        ++ le_bytes 2 e.fx2_did ++ [e.fx2_config, e.sep]
        ++ as_bytearray e.eeprom_atoms).length = 127 := by
      have := hplen' 0
      simp only [List.length_append, List.length_cons, List.length_nil] at this ⊢
      omega
    rw [show ([e.fx2_format] ++ le_bytes 2 e.fx2_vid ++ le_bytes 2 e.fx2_pid
        ++ le_bytes 2 e.fx2_did ++ [e.fx2_config, e.sep]
        ++ as_bytearray e.eeprom_atoms ++ [y])
      = (([e.fx2_format] ++ le_bytes 2 e.fx2_vid ++ le_bytes 2 e.fx2_pid
        ++ le_bytes 2 e.fx2_did ++ [e.fx2_config, e.sep]
        ++ as_bytearray e.eeprom_atoms) ++ [y]) by simp,
      show ([e.fx2_format] ++ le_bytes 2 e.fx2_vid ++ le_bytes 2 e.fx2_pid
        ++ le_bytes 2 e.fx2_did ++ [e.fx2_config, e.sep]
        ++ as_bytearray e.eeprom_atoms ++ [z])
      = (([e.fx2_format] ++ le_bytes 2 e.fx2_vid ++ le_bytes 2 e.fx2_pid
        ++ le_bytes 2 e.fx2_did ++ [e.fx2_config, e.sep]
        ++ as_bytearray e.eeprom_atoms) ++ [z]) by simp,
      List.take_left' h127, List.take_left' h127]
  have hdrop : ∀ y : Nat,
      (OpsisEEPROM.as_bytes { e with crc8_full := y }).drop 128 =
        e.wp_empty ++ e.wp_mac := by
    intro y
    rw [hlen y, List.drop_left' (hplen' y)]
  have he : e = { e with crc8_full := e.crc8_full } := rfl
  unfold full_bytes
  rw [htake x, htake2 x 0]
  rw [hdrop x]
  conv_rhs => rw [he]
  rw [htake e.crc8_full, htake2 e.crc8_full 0, hdrop e.crc8_full]

/-- C7 shows a genuine code bug: OpsisEEPROM.check passes on a 256-byte
image that is well formed in every other respect but whose embedded atom
container's crc8 byte disagrees with the CRC-8 of the container bytes,
because line 117 of opsis_eeprom.py computes eeprom_atoms.crc_check() and
discards the result instead of asserting it. -/
theorem opsis_check_ignores_inner_crc :
    OpsisEEPROM.check c7_img = true ∧
    crc_check c7_img.eeprom_atoms = false ∧
    (OpsisEEPROM.as_bytes c7_img).length = 256 := by
  refine ⟨?_, ?_, by decide⟩
  · have hbig : calculate_crc_full c7_img = c7_img.crc8_full := by
      have hfull : full_bytes c7_img = full_bytes c7_img0 :=
        full_bytes_set_crc8_full c7_img0 (calculate_crc_full c7_img0)
          (by decide) (by decide)
      have hproj : c7_img.crc8_full = calculate_crc_full c7_img0 := by
        simp only [c7_img]
      rw [hproj]
      unfold calculate_crc_full
      rw [show full_bytes c7_img = full_bytes c7_img0 from hfull]
    unfold OpsisEEPROM.check
    rw [hbig]
    simp only [beq_self_eq_true, Bool.and_true]
    decide
  · have h1 : crc_calculate c7_img.eeprom_atoms = crc_calculate c7_atoms0 := by
      simp only [c7_img, c7_img0, c7_atoms, crc_calculate]
    have h2 : c7_img.eeprom_atoms.crc8 = (crc_calculate c7_atoms0 + 1) % 256 := by
      simp only [c7_img, c7_img0, c7_atoms]
    unfold crc_check
    rw [h1, h2]
    simp only [beq_eq_false_iff_ne, ne_eq]
    omega

/-! ## Claim C3: the append ordering discipline -/

/-- Counterexample to C3 as stated: with a single AtomProductID atom (type
byte 0x13) in a TOFE container, appending an AtomProductVersion atom (type
byte 0x01) succeeds even though 0x01 is less than 0x13 — add_atom compares
the classes' ORDER registry indices (2 and 3 here), not the type bytes. -/
theorem add_atom_accepts_smaller_type :
    tofe_one_atom.map
      (fun c => add_is_ok (add_atom true TOFE_RAGIC c
        (AtomProductVersion (ascii "y")))) = some true ∧
    tofe_one_atom.map (fun c => atom_walk c.buf 0 0) = some (some (0, 0x13, 1)) ∧
    (AtomProductVersion (ascii "y")).ty = 0x01 ∧ (0x01 : Nat) < 0x13 := by
  decide

/-- C3 amended.  For a non-empty container (with intact trailer, a readable
last atom of ORDER o, and a non-relative atom to append, on an owned
buffer), add_atom fails with the ordering assert exactly when the appended
atom's ORDER registry index is less than o, and succeeds exactly when it is
at least o. -/
theorem add_atom_order_iff (R : List Nat) (c : Container) (a : AtomB) (o : Nat)
    (h0 : 0 < c.atoms) (h1 : ragic c R = R)
    (h2 : get_atom_order c (c.atoms - 1) = some o) (h3 : a.is_rel = false) :
    (add_is_ok (add_atom true R c a) = true ↔ o ≤ a.order) ∧
    (add_atom true R c a = .assertFail c ↔ a.order < o) := by
  have hne : c.atoms ≠ 0 := by omega
  have hord : order_ok c a = decide (o ≤ a.order) := by
    unfold order_ok
    rw [if_neg hne, h2]
  by_cases ho : o ≤ a.order
  · unfold add_atom
    rw [if_neg (by simp [h1]), hord,
      if_neg (by simp [decide_eq_true ho]),
      if_neg (by simp [h3])]
    simp only [len_set, if_true, atom_sizeof]
    simp [add_is_ok, ho]
  · unfold add_atom
    rw [if_neg (by simp [h1]), hord,
      if_pos (by simp [decide_eq_false ho])]
    simp [add_is_ok, ho]
    omega

/-- Witness for C3 at the concrete one-atom TOFE container: ORDER 3 appended
after ORDER 2 is accepted. -/
theorem add_atom_order_iff_witness :
    add_is_ok (add_atom true TOFE_RAGIC tofe_one_atom_c
      (AtomProductVersion (ascii "y"))) = true :=
  (add_atom_order_iff TOFE_RAGIC tofe_one_atom_c (AtomProductVersion (ascii "y"))
    2 (by decide) (by decide) (by decide) (by decide)).1.mpr (by decide)

/-! ## Claim C4: capacity failures -/

/-- Counterexample to C4 as stated: appending to a composite image whose
106-byte atom region is full does raise (no ctypes resize of a non-owned
buffer), but only after the atoms counter was incremented, so the image's
bytes have changed: the failed append does not leave the image unchanged,
and there is no CapacityExceeded error distinct from the raised ValueError. -/
theorem add_atom_capacity_concrete :
    add_atom false OPSIS_RAGIC c4_full (AtomProductVersion (ascii "y")) =
      .capacityFail { c4_full with atoms := 1 } ∧
    as_bytearray { c4_full with atoms := 1 } ≠ as_bytearray c4_full := by
  decide

/-- C4 amended.  Whenever the asserts pass but the grown length exceeds the
fixed data region of an embedded container, add_atom raises out of the
length update with the atoms byte already incremented (wrapping as a u8),
and the serialized image differs from the original in that byte. -/
theorem add_atom_capacity_mutates (R : List Nat) (c : Container) (a : AtomB)
    (h1 : ragic c R = R) (h2 : order_ok c a = true)
    (h3 : a.is_rel = true → a.payload.getD 0 0 < c.atoms)
    (h4 : c.buf.length < c._len + atom_sizeof a) :
    add_atom false R c a = .capacityFail { c with atoms := (c.atoms + 1) % 256 } ∧
    as_bytearray { c with atoms := (c.atoms + 1) % 256 } ≠ as_bytearray c := by
  constructor
  · unfold add_atom
    rw [if_neg (by simp [h1]), if_neg (by simp [h2])]
    rw [if_neg ?hrel]
    case hrel =>
      rintro ⟨hr, hn⟩
      exact hn (h3 hr)
    simp only [len_set, Bool.false_eq_true, if_false]
    rw [if_pos (by simpa using h4)]
  · intro heq
    simp only [as_bytearray, List.append_assoc] at heq
    have hmod : (c.atoms + 1) % 256 ≠ c.atoms := by omega
    apply hmod
    have h5 := (List.append_right_inj c.magic).mp heq
    simp only [List.cons_append, List.nil_append, List.cons.injEq] at h5
    exact h5.2.1

/-- Witness for C4 at the full embedded container. -/
theorem add_atom_capacity_mutates_witness :
    add_atom false OPSIS_RAGIC c4_full (AtomProductVersion (ascii "z")) =
      .capacityFail { c4_full with atoms := (c4_full.atoms + 1) % 256 } :=
  (add_atom_capacity_mutates OPSIS_RAGIC c4_full (AtomProductVersion (ascii "z"))
    (by decide) (by decide) (by decide) (by decide)).1

/-! ## Claim C10: populate and the MAC region -/

/-- Counterexample to C10 as stated: populating an all-zero image writes
0xFF into byte 0xF8 (the first byte of the MAC / EUI-64 region), because
populate stamps the two lead bytes of wp_mac with the c_byte value -1
whenever the first one reads zero. -/
theorem opsis_populate_writes_mac :
    (OpsisEEPROM.populate opsis_zero 1451606400 1451606400).map
      (fun x => x.wp_mac.getD 0 0) = some 255 ∧
    opsis_zero.wp_mac.getD 0 0 = 0 := by
  decide

/-- Whatever container OpsisAtoms.populate returns, the final populate step
keeps the wp_mac field of the image it is given. -/
theorem bind_fin_mac (A : Option Container) (e e2 : OpsisEEPROM)
    (h : A.bind (opsis_populate_fin e) = some e2) :
    e2.wp_mac = e.wp_mac := by
  cases A with
  | none => exact absurd h (by simp)
  | some c =>
    rw [Option.some_bind] at h
    unfold opsis_populate_fin at h
    injection h with he2
    rw [← he2]

/-- C10 amended.  Whenever OpsisEEPROM.populate succeeds, the MAC region
bytes from 0xFA on are unchanged, and the whole region [0xF8, 0x100) is
unchanged exactly when its first byte was nonzero; a zero first byte makes
populate set the first two bytes to 0xFF. -/
theorem opsis_populate_mac (e e2 : OpsisEEPROM) (ts1 ts2 : Nat)
    (h : OpsisEEPROM.populate e ts1 ts2 = some e2) :
    e2.wp_mac = (if e.wp_mac.getD 0 0 = 0 then 0xff :: 0xff :: e.wp_mac.drop 2
      else e.wp_mac) ∧
    e2.wp_mac.drop 2 = e.wp_mac.drop 2 := by
  have h2 : (OpsisAtoms_populate ts1 ts2
      (opsis_populate_pre e).eeprom_atoms).bind
      (opsis_populate_fin (opsis_populate_pre e)) = some e2 := h
  have hm := bind_fin_mac _ _ _ h2
  have hpre : (opsis_populate_pre e).wp_mac =
      (if e.wp_mac.getD 0 0 = 0 then 0xff :: 0xff :: e.wp_mac.drop 2
        else e.wp_mac) := by
    simp only [opsis_populate_pre]
  constructor
  · rw [hm, hpre]
  · rw [hm, hpre]
    split
    · rfl
    · rfl

/-- Witness for C10 at the all-zero image with both timestamps reading
2016-01-01. -/
theorem opsis_populate_mac_witness :
    (OpsisEEPROM.populate opsis_zero 1451606400 1451606400).map
      (fun x => x.wp_mac) = some [0xff, 0xff, 0, 0, 0, 0, 0, 0] := by
  cases hE : OpsisEEPROM.populate opsis_zero 1451606400 1451606400 with
  | none => exact absurd hE (by decide)
  | some e2 =>
    have h := (opsis_populate_mac opsis_zero e2 1451606400 1451606400 hE).1
    simp only [Option.map_some']
    rw [h]
    decide
